import Mathlib

/-!
# Message composer of the web client (`src/widgets/send-message.jsx`)

A shallow embedding of the event handlers of the `SendMessage` component.

* Every handler is a function from the component's inputs (configuration
  constants, collaborators, React state, the DOM event) to the new state and
  the ordered list of calls it makes on its collaborators (`Effect`).
* The constants of `config.js`, `SUPPORTED_IMAGE_FORMATS` of
  `lib/blob-helpers.js`, `bytesToHumanSize` of `lib/strformat.js` and
  `formatMessage` of react-intl are parameters (`Config`, `Collaborators`).
* `Drafty.insertImage` and `Drafty.attachFile` are external builders: their
  result is represented by the arguments of the call (`Content`).
* The asynchronous encoders (`fileToBase64`, `imageFileToBase64`,
  `imageFileScaledToBase64`, `filePasted`) are external. Starting one is an
  effect; the callback the handler hands to it is a function of its own.
* Timestamps and `KEYPRESS_DELAY` are integers, so that `now - keypressTimestamp`
  is the subtraction of JavaScript numbers.
-/

namespace SendMessage

/-! ## Data -/

/-- The fields of a DOM `File` which the handlers read. -/
structure File where
  name : String
  type : String
  size : Nat
  deriving DecidableEq, Repr

/-- Constants imported from `../config.js` and `../lib/blob-helpers.js`. -/
structure Config where
  KEYPRESS_DELAY : Int
  MAX_EXTERN_ATTACHMENT_SIZE : Nat
  MAX_IMAGE_DIM : Nat
  MAX_INBAND_ATTACHMENT_SIZE : Nat
  SUPPORTED_IMAGE_FORMATS : List String

/-- An entry of `defineMessages`. -/
structure MessageDescriptor where
  id : String
  defaultMessage : String
  description : String
  deriving DecidableEq, Repr

/-- The descriptor `messages.file_attachment_too_large` (lines 24-28). -/
def messages.file_attachment_too_large : MessageDescriptor :=
  { id := "file_attachment_too_large"
    defaultMessage := "The file size \x7bsize\x7d exceeds the \x7blimit\x7d limit."
    description := "Error message when attachment is too large" }

/-- The descriptor `messages.cannot_initiate_upload` (lines 29-33). -/
def messages.cannot_initiate_upload : MessageDescriptor :=
  { id := "cannot_initiate_file_upload"
    defaultMessage := "Cannot initiate file upload."
    description := "Generic error messagewhen attachment fails" }

/-- The object returned by `tinode.getLargeFileHelper()`. -/
structure Uploader where
  uid : Nat
  deriving DecidableEq, Repr

/-- The promise returned by `uploader.upload(file)`. -/
structure UploadPromise where
  pid : Nat
  deriving DecidableEq, Repr

/-- External collaborators whose results the handlers read. -/
structure Collaborators where
  /-- The function `formatMessage` of `props.intl`. -/
  formatMessage : MessageDescriptor → List (String × String) → String
  /-- The function `bytesToHumanSize` of `lib/strformat.js`. -/
  bytesToHumanSize : Nat → String
  /-- The result of `props.tinode.getLargeFileHelper()`; `none` is `null`. -/
  getLargeFileHelper : Option Uploader
  /-- The result of `uploader.upload(file)`. -/
  upload : Uploader → File → UploadPromise

/-- What `props.sendMessage` receives as its first argument: a trimmed text, or
the result of a Drafty builder, represented by the arguments of the call.
An argument which the call leaves out, or passes as `null`, is `none`. -/
inductive Content where
  | text (msg : String)
  | insertImage (at_ : Nat) (mime : String) (bits : String) (width height : Nat)
      (fname : String)
  | attachFile (mime : String) (data : Option String) (fname : String)
      (size : Option Nat) (urlPromise : Option UploadPromise)
  deriving DecidableEq, Repr

/-- Calls made by a handler, in program order. -/
inductive Effect where
  | sendMessage (msg : Content) (promise : Option UploadPromise)
      (uploader : Option Uploader)
  | onError (err : String) (level : Option String)
  | getLargeFileHelper
  | upload (uploader : Uploader) (file : File)
  | fileToBase64 (file : File)
  | imageFileToBase64 (file : File)
  | imageFileScaledToBase64 (file : File) (width height : Nat) (forceSquare : Bool)
  | filePasted
  | noteKeyPress
  | preventDefault
  | stopPropagation
  deriving DecidableEq, Repr

/-- React state of the component (lines 72-73). -/
structure State where
  message : String
  keypressTimestamp : Int
  deriving DecidableEq, Repr

/-- The state of a component created at time `created` (lines 72-73). -/
def State.initial (cfg : Config) (created : Int) : State :=
  { message := "", keypressTimestamp := created - cfg.KEYPRESS_DELAY - 1 }

/-! ## JavaScript library functions -/

/-- White space and line terminators of ECMAScript, the characters which
`String.prototype.trim` removes. -/
def isJsWhiteSpace (c : Char) : Bool :=
  c.toNat = 0x09 || c.toNat = 0x0A || c.toNat = 0x0B || c.toNat = 0x0C ||
  c.toNat = 0x0D || c.toNat = 0x20 || c.toNat = 0xA0 || c.toNat = 0x1680 ||
  (0x2000 ≤ c.toNat && c.toNat ≤ 0x200A) || c.toNat = 0x2028 || c.toNat = 0x2029 ||
  c.toNat = 0x202F || c.toNat = 0x205F || c.toNat = 0x3000 || c.toNat = 0xFEFF

/-- The list version of `String.prototype.trim`. -/
def jsTrimList (cs : List Char) : List Char :=
  ((cs.dropWhile isJsWhiteSpace).reverse.dropWhile isJsWhiteSpace).reverse

/-- The function `String.prototype.trim`. -/
def jsTrim (s : String) : String :=
  String.mk (jsTrimList s.data)

/-- Index search of `Array.prototype.indexOf`, counting from `i`. -/
def jsIndexOfFrom (i : Int) : List String → String → Int
  | [], _ => -1
  | x :: xs, s => if x = s then i else jsIndexOfFrom (i + 1) xs s

/-- The function `Array.prototype.indexOf` on an array of strings. -/
def jsIndexOf (xs : List String) (s : String) : Int :=
  jsIndexOfFrom 0 xs s

/-! ## Handlers -/

/-- The handler `_handleSend` (lines 83-90). -/
def _handleSend (st : State) : State × List Effect :=
  let msg := jsTrim st.message
  if msg ≠ "" then
    ({ st with message := "" }, [Effect.sendMessage (Content.text msg) none none])
  else
    (st, [])

/-- A `keypress` event, as far as `_handleKeyPress` reads it. -/
structure KeyEvent where
  key : String
  shiftKey : Bool
  deriving DecidableEq, Repr

/-- The handler `_handleKeyPress` (lines 92-101). -/
def _handleKeyPress (st : State) (e : KeyEvent) : State × List Effect :=
  if e.key = "Enter" then
    if !e.shiftKey then
      let r := _handleSend st
      (r.1, [Effect.preventDefault, Effect.stopPropagation] ++ r.2)
    else (st, [])
  else (st, [])

/-- First callback handed to `filePasted` (lines 106-109). -/
def _handlePasteEvent_onImage (bits mime : String) (width height : Nat) (fname : String) :
    List Effect :=
  [Effect.sendMessage (Content.insertImage 0 mime bits width height fname) none none]

/-- Second callback handed to `filePasted` (lines 110-112). -/
def _handlePasteEvent_onAttachment (mime bits fname : String) : List Effect :=
  [Effect.sendMessage (Content.attachFile mime (some bits) fname none none) none none]

/-- Third callback handed to `filePasted` (line 113): `props.onError` itself,
called with what `filePasted` passes. -/
def _handlePasteEvent_onFailure (err : String) (level : Option String) : List Effect :=
  [Effect.onError err level]

/-- The handler `_handlePasteEvent` (lines 103-119); `pasted` is what the
external `filePasted` returns. -/
def _handlePasteEvent (disabled : Bool) (pasted : Bool) : List Effect :=
  if !disabled then
    if pasted then [Effect.filePasted, Effect.preventDefault] else [Effect.filePasted]
  else []

/-- An `onChange` event of the text input, with the clock and the topic as the
handler finds them. -/
structure TypingEvent where
  /-- The value of `new Date().getTime()`. -/
  now : Int
  /-- The value of `topic.isSubscribed()`. -/
  subscribed : Bool
  /-- The value of `e.target.value`. -/
  value : String
  deriving DecidableEq, Repr

/-- The handler `_handleMessageTyping` (lines 121-134). -/
def _handleMessageTyping (cfg : Config) (st : State) (e : TypingEvent) :
    State × List Effect :=
  if e.now - st.keypressTimestamp > cfg.KEYPRESS_DELAY then
    ({ message := e.value, keypressTimestamp := e.now },
      if e.subscribed then [Effect.noteKeyPress] else [])
  else
    ({ st with message := e.value }, [])

/-- The `change` event of a file input: `e.target.files` and `e.target.value`. -/
structure FileEvent where
  files : Option (List File)
  value : String
  deriving DecidableEq, Repr

/-- What a file handler leaves behind: `e.target.value` and its calls. -/
structure FileResult where
  value : String
  effects : List Effect
  deriving DecidableEq, Repr

/-- Success callback of both encoders of `_handleAttachImage` (lines 144-146, 155-157). -/
def _handleAttachImage_onSuccess (bits mime : String) (width height : Nat) (fname : String) :
    List Effect :=
  [Effect.sendMessage (Content.insertImage 0 mime bits width height fname) none none]

/-- Failure callback of both encoders of `_handleAttachImage` (lines 148-150, 159-161). -/
def _handleAttachImage_onFailure (err : String) : List Effect :=
  [Effect.onError err (some "err")]

/-- The handler `_handleAttachImage` (lines 136-167). -/
def _handleAttachImage (cfg : Config) (e : FileEvent) : FileResult :=
  match e.files with
  | some (file :: _) =>
    if file.size > cfg.MAX_INBAND_ATTACHMENT_SIZE ∨
        jsIndexOf cfg.SUPPORTED_IMAGE_FORMATS file.type < 0 then
      { value := "",
        effects := [Effect.imageFileScaledToBase64 file cfg.MAX_IMAGE_DIM cfg.MAX_IMAGE_DIM false] }
    else
      { value := "", effects := [Effect.imageFileToBase64 file] }
  | _ => { value := "", effects := [] }

/-- Success callback of `fileToBase64` in `_handleAttachFile` (lines 190-192). -/
def _handleAttachFile_onSuccess (mime bits fname : String) : List Effect :=
  [Effect.sendMessage (Content.attachFile mime (some bits) fname none none) none none]

/-- Failure callback of `fileToBase64` in `_handleAttachFile` (line 193):
`props.onError` itself, called with what the encoder passes. -/
def _handleAttachFile_onFailure (err : String) (level : Option String) : List Effect :=
  [Effect.onError err level]

/-- The handler `_handleAttachFile` (lines 169-199). -/
def _handleAttachFile (cfg : Config) (env : Collaborators) (e : FileEvent) : FileResult :=
  match e.files with
  | some (file :: _) =>
    if file.size > cfg.MAX_EXTERN_ATTACHMENT_SIZE then
      { value := "",
        effects := [Effect.onError
          (env.formatMessage messages.file_attachment_too_large
            [("size", env.bytesToHumanSize file.size),
             ("limit", env.bytesToHumanSize cfg.MAX_EXTERN_ATTACHMENT_SIZE)])
          (some "err")] }
    else if file.size > cfg.MAX_INBAND_ATTACHMENT_SIZE then
      match env.getLargeFileHelper with
      | none =>
        -- line 180: `return` leaves the handler before line 198
        { value := e.value,
          effects := [Effect.getLargeFileHelper,
            Effect.onError (env.formatMessage messages.cannot_initiate_upload []) none] }
      | some uploader =>
        let uploadCompletionPromise := env.upload uploader file
        let msg := Content.attachFile file.type none file.name (some file.size)
          (some uploadCompletionPromise)
        { value := "",
          effects := [Effect.getLargeFileHelper, Effect.upload uploader file,
            Effect.sendMessage msg (some uploadCompletionPromise) (some uploader)] }
    else
      { value := "", effects := [Effect.fileToBase64 file] }
  | _ => { value := "", effects := [] }

/-! ## Observations on traces -/

/-- The effect reports an error (`props.onError`). -/
def Effect.isError : Effect → Bool
  | .onError _ _ => true
  | _ => false

/-- The effect is a call of `props.sendMessage`. -/
def Effect.isSend : Effect → Bool
  | .sendMessage _ _ _ => true
  | _ => false

/-- The effect asks the session for an uploader. -/
def Effect.isUploaderRequest : Effect → Bool
  | .getLargeFileHelper => true
  | _ => false

/-- The effect starts an out-of-band upload. -/
def Effect.isUpload : Effect → Bool
  | .upload _ _ => true
  | _ => false

/-- The effect starts an inline encoding. -/
def Effect.isEncoding : Effect → Bool
  | .fileToBase64 _ => true
  | .imageFileToBase64 _ => true
  | .imageFileScaledToBase64 _ _ _ _ => true
  | _ => false

/-! ## Sample inputs -/

/-- The size profile of the scenarios of the specification, with a typing
delay of three seconds. -/
def sampleConfig : Config :=
  { KEYPRESS_DELAY := 3000
    MAX_EXTERN_ATTACHMENT_SIZE := 1048576
    MAX_IMAGE_DIM := 1024
    MAX_INBAND_ATTACHMENT_SIZE := 65536
    SUPPORTED_IMAGE_FORMATS := ["image/jpeg", "image/gif", "image/png"] }

/-- Collaborators of a session which has an uploader. -/
def sampleEnv : Collaborators :=
  { formatMessage := fun d vs => String.intercalate "|" (d.id :: vs.map Prod.snd)
    bytesToHumanSize := fun n => if n < 1024 then "bytes" else "kilobytes"
    getLargeFileHelper := some { uid := 1 }
    upload := fun u f => { pid := u.uid + f.size } }

/-- Collaborators of a session which has no uploader. -/
def sampleEnvNoUploader : Collaborators :=
  { sampleEnv with getLargeFileHelper := none }

/-- A file above the out-of-band limit of `sampleConfig`. -/
def hugeFile : File := { name := "huge.bin", type := "application/octet-stream", size := 2000000 }

/-- A file between the two limits of `sampleConfig`. -/
def pdfFile : File := { name := "paper.pdf", type := "application/pdf", size := 200000 }

/-- A small image in a supported format. -/
def smallPng : File := { name := "icon.png", type := "image/png", size := 500 }

/-- A large image in a supported format. -/
def largePng : File := { name := "photo.png", type := "image/png", size := 500000 }

/-! ## Sequences of events and the calls of the whole component -/

/-- Handling typing events one after the other, each on the state the one
before left; the calls of each event are kept apart. -/
def runTyping (cfg : Config) : State → List TypingEvent → State × List (List Effect)
  | st, [] => (st, [])
  | st, e :: es =>
    let r := _handleMessageTyping cfg st e
    let rs := runTyping cfg r.1 es
    (rs.1, r.2 :: rs.2)

/-- Calling `_handleSend` a number of times in a row. -/
def repeatSend : Nat → State → State × List Effect
  | 0, st => (st, [])
  | n + 1, st =>
    let r := _handleSend st
    let rs := repeatSend n r.1
    (rs.1, r.2 ++ rs.2)

/-- Every call the component can make: those of its handlers and those of the
callbacks it hands to the encoders. -/
inductive Emitted (cfg : Config) (env : Collaborators) : Effect → Prop where
  | send (st : State) (eff : Effect) : eff ∈ (_handleSend st).2 → Emitted cfg env eff
  | keyPress (st : State) (e : KeyEvent) (eff : Effect) :
      eff ∈ (_handleKeyPress st e).2 → Emitted cfg env eff
  | paste (disabled pasted : Bool) (eff : Effect) :
      eff ∈ _handlePasteEvent disabled pasted → Emitted cfg env eff
  | pasteImage (bits mime : String) (width height : Nat) (fname : String) (eff : Effect) :
      eff ∈ _handlePasteEvent_onImage bits mime width height fname → Emitted cfg env eff
  | pasteAttachment (mime bits fname : String) (eff : Effect) :
      eff ∈ _handlePasteEvent_onAttachment mime bits fname → Emitted cfg env eff
  | pasteFailure (err : String) (level : Option String) (eff : Effect) :
      eff ∈ _handlePasteEvent_onFailure err level → Emitted cfg env eff
  | typing (st : State) (e : TypingEvent) (eff : Effect) :
      eff ∈ (_handleMessageTyping cfg st e).2 → Emitted cfg env eff
  | attachImage (e : FileEvent) (eff : Effect) :
      eff ∈ (_handleAttachImage cfg e).effects → Emitted cfg env eff
  | attachImageSuccess (bits mime : String) (width height : Nat) (fname : String)
      (eff : Effect) :
      eff ∈ _handleAttachImage_onSuccess bits mime width height fname → Emitted cfg env eff
  | attachImageFailure (err : String) (eff : Effect) :
      eff ∈ _handleAttachImage_onFailure err → Emitted cfg env eff
  | attachFile (e : FileEvent) (eff : Effect) :
      eff ∈ (_handleAttachFile cfg env e).effects → Emitted cfg env eff
  | attachFileSuccess (mime bits fname : String) (eff : Effect) :
      eff ∈ _handleAttachFile_onSuccess mime bits fname → Emitted cfg env eff
  | attachFileFailure (err : String) (level : Option String) (eff : Effect) :
      eff ∈ _handleAttachFile_onFailure err level → Emitted cfg env eff

/-- A call of `props.sendMessage` keeps inline data and upload handle apart.
With a fragment built by `Drafty.attachFile`: either the data is `null`, the
fragment holds a handle, and that handle and an uploader are passed along; or
the fragment holds data and no handle, and neither handle nor uploader is
passed. With any other content: neither handle nor uploader is passed. -/
def Effect.attachmentExclusive : Effect → Bool
  | .sendMessage (.attachFile _ data _ _ urlPromise) promise uploader =>
    (data.isNone && urlPromise.isSome && promise == urlPromise && uploader.isSome) ||
    (data.isSome && urlPromise.isNone && promise.isNone && uploader.isNone)
  | .sendMessage _ promise uploader => promise.isNone && uploader.isNone
  | _ => true

/-! ## Library lemmas -/

theorem jsIndexOfFrom_neg_iff (xs : List String) (s : String) (i : Int) (hi : 0 ≤ i) :
    jsIndexOfFrom i xs s < 0 ↔ s ∉ xs := by
  induction xs generalizing i with
  | nil => simp [jsIndexOfFrom]
  | cons x xs ih =>
    unfold jsIndexOfFrom
    by_cases hx : x = s
    · subst hx
      simp only [if_true, List.mem_cons, true_or, not_true_eq_false, iff_false, not_lt]
      exact hi
    · have hx2 : ¬ s = x := fun h => hx h.symm
      simp only [hx, if_false, List.mem_cons, hx2, false_or]
      exact ih (i + 1) (by omega)

theorem jsIndexOf_neg_iff (xs : List String) (s : String) :
    jsIndexOf xs s < 0 ↔ s ∉ xs :=
  jsIndexOfFrom_neg_iff xs s 0 (le_refl 0)

theorem handleSend_eq (st : State) :
    _handleSend st =
      (if jsTrim st.message = "" then (st, [])
      else ({ st with message := "" },
        [Effect.sendMessage (Content.text (jsTrim st.message)) none none])) := by
  unfold _handleSend
  by_cases h : jsTrim st.message = ""
  · simp [h]
  · simp [h]

theorem mem_handleSend (st : State) (eff : Effect) (h : eff ∈ (_handleSend st).2) :
    eff = Effect.sendMessage (Content.text (jsTrim st.message)) none none := by
  rw [handleSend_eq] at h
  by_cases hc : jsTrim st.message = ""
  · simp [hc] at h
  · simpa [hc] using h

theorem jsTrimList_eq_nil_iff (cs : List Char) :
    jsTrimList cs = [] ↔ ∀ c ∈ cs, isJsWhiteSpace c = true := by
  unfold jsTrimList
  rw [List.reverse_eq_nil_iff, List.dropWhile_eq_nil_iff]
  constructor
  · intro h
    have hnil : cs.dropWhile isJsWhiteSpace = [] := by
      by_contra hne
      have hhead := List.head_dropWhile_not isJsWhiteSpace cs hne
      have hmem : (cs.dropWhile isJsWhiteSpace).head hne ∈
          (cs.dropWhile isJsWhiteSpace).reverse :=
        List.mem_reverse.mpr (List.head_mem hne)
      rw [h _ hmem] at hhead
      exact absurd hhead (by decide)
    exact List.dropWhile_eq_nil_iff.mp hnil
  · intro h x hx
    have hnil : cs.dropWhile isJsWhiteSpace = [] := List.dropWhile_eq_nil_iff.mpr h
    rw [hnil] at hx
    simp at hx

theorem jsTrim_eq_empty_iff (s : String) :
    jsTrim s = "" ↔ ∀ c ∈ s.data, isJsWhiteSpace c = true := by
  rw [← jsTrimList_eq_nil_iff]
  unfold jsTrim
  constructor
  · intro h
    have := congrArg String.data h
    simpa using this
  · intro h
    rw [h]

theorem handleSend_again (st : State) :
    _handleSend (_handleSend st).1 = ((_handleSend st).1, []) := by
  have hempty : jsTrim "" = "" := by decide
  by_cases h : jsTrim st.message = ""
  · have h1 : _handleSend st = (st, []) := by rw [handleSend_eq]; simp [h]
    rw [h1]
    exact h1
  · have h1 : _handleSend st = ({ st with message := "" },
        [Effect.sendMessage (Content.text (jsTrim st.message)) none none]) := by
      rw [handleSend_eq]; simp [h]
    rw [h1, handleSend_eq]
    simp [hempty]

theorem repeatSend_succ (n : Nat) (st : State) :
    repeatSend (n + 1) st = _handleSend st := by
  induction n generalizing st with
  | zero => simp [repeatSend]
  | succ n ih =>
    have h := ih (_handleSend st).1
    rw [handleSend_again] at h
    show ((repeatSend (n + 1) (_handleSend st).1).1,
      (_handleSend st).2 ++ (repeatSend (n + 1) (_handleSend st).1).2) = _handleSend st
    rw [h]
    simp

/-! ## Attaching a file -/

/-- C1: a file larger than `MAX_EXTERN_ATTACHMENT_SIZE` is rejected by
`_handleAttachFile`. The handler makes one call, `props.onError` with the
`file_attachment_too_large` message formatted with `bytesToHumanSize(file.size)`
as `size` and `bytesToHumanSize(MAX_EXTERN_ATTACHMENT_SIZE)` as `limit`; it
sends nothing, asks for no uploader, starts no upload and no encoding. -/
theorem handleAttachFile_too_large (cfg : Config) (env : Collaborators) (file : File)
    (rest : List File) (value : String)
    (hsize : file.size > cfg.MAX_EXTERN_ATTACHMENT_SIZE) :
    (_handleAttachFile cfg env { files := some (file :: rest), value := value }).effects =
      [Effect.onError
        (env.formatMessage messages.file_attachment_too_large
          [("size", env.bytesToHumanSize file.size),
           ("limit", env.bytesToHumanSize cfg.MAX_EXTERN_ATTACHMENT_SIZE)])
        (some "err")] ∧
    ∀ eff ∈ (_handleAttachFile cfg env { files := some (file :: rest), value := value }).effects,
      eff.isSend = false ∧ eff.isUploaderRequest = false ∧ eff.isUpload = false ∧
        eff.isEncoding = false := by
  have h : (_handleAttachFile cfg env { files := some (file :: rest), value := value }).effects =
      [Effect.onError
        (env.formatMessage messages.file_attachment_too_large
          [("size", env.bytesToHumanSize file.size),
           ("limit", env.bytesToHumanSize cfg.MAX_EXTERN_ATTACHMENT_SIZE)])
        (some "err")] := by
    simp [_handleAttachFile, hsize]
  refine ⟨h, ?_⟩
  intro eff heff
  rw [h] at heff
  simp only [List.mem_singleton] at heff
  subst heff
  simp [Effect.isSend, Effect.isUploaderRequest, Effect.isUpload, Effect.isEncoding]

theorem handleAttachFile_too_large_witness :
    hugeFile.size > sampleConfig.MAX_EXTERN_ATTACHMENT_SIZE ∧
    (_handleAttachFile sampleConfig sampleEnv { files := some [hugeFile], value := "huge.bin" }).effects =
      [Effect.onError
        (sampleEnv.formatMessage messages.file_attachment_too_large
          [("size", sampleEnv.bytesToHumanSize hugeFile.size),
           ("limit", sampleEnv.bytesToHumanSize sampleConfig.MAX_EXTERN_ATTACHMENT_SIZE)])
        (some "err")] :=
  ⟨by decide,
   (handleAttachFile_too_large sampleConfig sampleEnv hugeFile [] "huge.bin" (by decide)).1⟩

/-- C2: a file with `MAX_INBAND_ATTACHMENT_SIZE < size <= MAX_EXTERN_ATTACHMENT_SIZE`
and an available uploader goes out of band. Within the handler call itself,
`_handleAttachFile` asks for the uploader, calls `uploader.upload(file)` once,
and calls `props.sendMessage` once with
`Drafty.attachFile(null, file.type, null, file.name, file.size, handle)`, the
handle returned by `upload`, and the uploader. No encoding is started and no
error is reported. -/
theorem handleAttachFile_out_of_band (cfg : Config) (env : Collaborators) (file : File)
    (rest : List File) (value : String) (uploader : Uploader)
    (hlow : cfg.MAX_INBAND_ATTACHMENT_SIZE < file.size)
    (hhigh : file.size ≤ cfg.MAX_EXTERN_ATTACHMENT_SIZE)
    (hup : env.getLargeFileHelper = some uploader) :
    (_handleAttachFile cfg env { files := some (file :: rest), value := value }).effects =
      [Effect.getLargeFileHelper,
       Effect.upload uploader file,
       Effect.sendMessage
        (Content.attachFile file.type none file.name (some file.size)
          (some (env.upload uploader file)))
        (some (env.upload uploader file)) (some uploader)] ∧
    ∀ eff ∈ (_handleAttachFile cfg env { files := some (file :: rest), value := value }).effects,
      eff.isEncoding = false ∧ eff.isError = false := by
  have h : (_handleAttachFile cfg env { files := some (file :: rest), value := value }).effects =
      [Effect.getLargeFileHelper,
       Effect.upload uploader file,
       Effect.sendMessage
        (Content.attachFile file.type none file.name (some file.size)
          (some (env.upload uploader file)))
        (some (env.upload uploader file)) (some uploader)] := by
    have h1 : ¬ file.size > cfg.MAX_EXTERN_ATTACHMENT_SIZE := not_lt.mpr hhigh
    have h2 : file.size > cfg.MAX_INBAND_ATTACHMENT_SIZE := hlow
    simp [_handleAttachFile, h1, h2, hup]
  refine ⟨h, ?_⟩
  intro eff heff
  rw [h] at heff
  simp only [List.mem_cons, List.mem_singleton, List.not_mem_nil, or_false] at heff
  rcases heff with rfl | rfl | rfl <;> simp [Effect.isEncoding, Effect.isError]

theorem handleAttachFile_out_of_band_witness :
    (_handleAttachFile sampleConfig sampleEnv { files := some [pdfFile], value := "paper.pdf" }).effects =
      [Effect.getLargeFileHelper,
       Effect.upload { uid := 1 } pdfFile,
       Effect.sendMessage
        (Content.attachFile "application/pdf" none "paper.pdf" (some 200000)
          (some { pid := 200001 }))
        (some { pid := 200001 }) (some { uid := 1 })] :=
  (handleAttachFile_out_of_band sampleConfig sampleEnv pdfFile [] "paper.pdf" { uid := 1 }
    (by decide) (by decide) rfl).1

/-- C3: a file with `MAX_INBAND_ATTACHMENT_SIZE < size <= MAX_EXTERN_ATTACHMENT_SIZE`
for which `getLargeFileHelper()` returns no uploader: `_handleAttachFile`
reports one error, the `cannot_initiate_upload` message, and stops. No upload
is started, no encoding is started and `props.sendMessage` is not called. -/
theorem handleAttachFile_no_uploader (cfg : Config) (env : Collaborators) (file : File)
    (rest : List File) (value : String)
    (hlow : cfg.MAX_INBAND_ATTACHMENT_SIZE < file.size)
    (hhigh : file.size ≤ cfg.MAX_EXTERN_ATTACHMENT_SIZE)
    (hup : env.getLargeFileHelper = none) :
    (_handleAttachFile cfg env { files := some (file :: rest), value := value }).effects =
      [Effect.getLargeFileHelper,
       Effect.onError (env.formatMessage messages.cannot_initiate_upload []) none] ∧
    ∀ eff ∈ (_handleAttachFile cfg env { files := some (file :: rest), value := value }).effects,
      eff.isUpload = false ∧ eff.isEncoding = false ∧ eff.isSend = false := by
  have h : (_handleAttachFile cfg env { files := some (file :: rest), value := value }).effects =
      [Effect.getLargeFileHelper,
       Effect.onError (env.formatMessage messages.cannot_initiate_upload []) none] := by
    have h1 : ¬ file.size > cfg.MAX_EXTERN_ATTACHMENT_SIZE := not_lt.mpr hhigh
    have h2 : file.size > cfg.MAX_INBAND_ATTACHMENT_SIZE := hlow
    simp [_handleAttachFile, h1, h2, hup]
  refine ⟨h, ?_⟩
  intro eff heff
  rw [h] at heff
  simp only [List.mem_cons, List.mem_singleton, List.not_mem_nil, or_false] at heff
  rcases heff with rfl | rfl <;> simp [Effect.isUpload, Effect.isEncoding, Effect.isSend]

theorem handleAttachFile_no_uploader_witness :
    (_handleAttachFile sampleConfig sampleEnvNoUploader
        { files := some [pdfFile], value := "paper.pdf" }).effects =
      [Effect.getLargeFileHelper,
       Effect.onError
        (sampleEnvNoUploader.formatMessage messages.cannot_initiate_upload []) none] :=
  (handleAttachFile_no_uploader sampleConfig sampleEnvNoUploader pdfFile [] "paper.pdf"
    (by decide) (by decide) rfl).1

/-! ## Attaching an image -/

/-- C4: `_handleAttachImage` sends the image as it is (`imageFileToBase64`)
exactly when `file.size <= MAX_INBAND_ATTACHMENT_SIZE` and `file.type` is in
`SUPPORTED_IMAGE_FORMATS`; in every other case it converts the image
(`imageFileScaledToBase64`) with `MAX_IMAGE_DIM` as the maximum width and the
maximum height. The handler reports no error, asks for no uploader and starts
no upload. -/
theorem handleAttachImage_classification (cfg : Config) (file : File) (rest : List File)
    (value : String) :
    (_handleAttachImage cfg { files := some (file :: rest), value := value }).effects =
      (if file.size ≤ cfg.MAX_INBAND_ATTACHMENT_SIZE ∧ file.type ∈ cfg.SUPPORTED_IMAGE_FORMATS then
        [Effect.imageFileToBase64 file]
      else
        [Effect.imageFileScaledToBase64 file cfg.MAX_IMAGE_DIM cfg.MAX_IMAGE_DIM false]) ∧
    ((_handleAttachImage cfg { files := some (file :: rest), value := value }).effects =
        [Effect.imageFileToBase64 file] ↔
      file.size ≤ cfg.MAX_INBAND_ATTACHMENT_SIZE ∧ file.type ∈ cfg.SUPPORTED_IMAGE_FORMATS) ∧
    ∀ eff ∈ (_handleAttachImage cfg { files := some (file :: rest), value := value }).effects,
      eff.isError = false ∧ eff.isUploaderRequest = false ∧ eff.isUpload = false := by
  have h : (_handleAttachImage cfg { files := some (file :: rest), value := value }).effects =
      (if file.size ≤ cfg.MAX_INBAND_ATTACHMENT_SIZE ∧ file.type ∈ cfg.SUPPORTED_IMAGE_FORMATS then
        [Effect.imageFileToBase64 file]
      else
        [Effect.imageFileScaledToBase64 file cfg.MAX_IMAGE_DIM cfg.MAX_IMAGE_DIM false]) := by
    by_cases hs : file.size ≤ cfg.MAX_INBAND_ATTACHMENT_SIZE
    · by_cases hm : file.type ∈ cfg.SUPPORTED_IMAGE_FORMATS
      · have hi : ¬ jsIndexOf cfg.SUPPORTED_IMAGE_FORMATS file.type < 0 := by
          rw [jsIndexOf_neg_iff]; exact not_not.mpr hm
        have hs2 : ¬ file.size > cfg.MAX_INBAND_ATTACHMENT_SIZE := not_lt.mpr hs
        simp [_handleAttachImage, hs, hm, hi, hs2]
      · have hi : jsIndexOf cfg.SUPPORTED_IMAGE_FORMATS file.type < 0 :=
          (jsIndexOf_neg_iff _ _).mpr hm
        simp [_handleAttachImage, hm, hi]
    · have hs2 : file.size > cfg.MAX_INBAND_ATTACHMENT_SIZE := not_le.mp hs
      simp [_handleAttachImage, hs, hs2]
  refine ⟨h, ?_, ?_⟩
  · rw [h]
    by_cases hc : file.size ≤ cfg.MAX_INBAND_ATTACHMENT_SIZE ∧
        file.type ∈ cfg.SUPPORTED_IMAGE_FORMATS
    · simp [hc]
    · simp [hc]
  · intro eff heff
    rw [h] at heff
    by_cases hc : file.size ≤ cfg.MAX_INBAND_ATTACHMENT_SIZE ∧
        file.type ∈ cfg.SUPPORTED_IMAGE_FORMATS
    · rw [if_pos hc] at heff
      simp only [List.mem_singleton] at heff
      subst heff
      simp [Effect.isError, Effect.isUploaderRequest, Effect.isUpload]
    · rw [if_neg hc] at heff
      simp only [List.mem_singleton] at heff
      subst heff
      simp [Effect.isError, Effect.isUploaderRequest, Effect.isUpload]

/-! ## Inline data or upload handle -/

/-- C5: every call the component makes keeps inline data and upload handle
apart. A fragment built with `Drafty.attachFile` holds either `null` data and
the handle of the upload (the out-of-band call, which also passes that handle
and the uploader to `props.sendMessage`), or the encoded data and no handle
(the inline and the paste callbacks, which pass nothing else to
`props.sendMessage`); never both, never neither. -/
theorem emitted_attachmentExclusive (cfg : Config) (env : Collaborators) (eff : Effect)
    (h : Emitted cfg env eff) : eff.attachmentExclusive = true := by
  cases h with
  | send st eff h =>
    rw [mem_handleSend st eff h]; rfl
  | keyPress st e eff h =>
    unfold _handleKeyPress at h
    split_ifs at h
    · simp only [List.cons_append, List.nil_append, List.mem_cons] at h
      rcases h with rfl | rfl | h
      · rfl
      · rfl
      · rw [mem_handleSend st eff h]; rfl
    · simp at h
    · simp at h
  | paste disabled pasted eff h =>
    unfold _handlePasteEvent at h
    split_ifs at h <;> simp at h
    · rcases h with rfl | rfl <;> rfl
    · subst h; rfl
  | pasteImage bits mime width height fname eff h =>
    simp only [_handlePasteEvent_onImage, List.mem_singleton] at h; subst h; rfl
  | pasteAttachment mime bits fname eff h =>
    simp only [_handlePasteEvent_onAttachment, List.mem_singleton] at h; subst h; rfl
  | pasteFailure err level eff h =>
    simp only [_handlePasteEvent_onFailure, List.mem_singleton] at h; subst h; rfl
  | typing st e eff h =>
    unfold _handleMessageTyping at h
    split_ifs at h <;> simp at h
    subst h; rfl
  | attachImage e eff h =>
    unfold _handleAttachImage at h
    split at h
    · split_ifs at h <;> simp at h <;> subst h <;> rfl
    · simp at h
  | attachImageSuccess bits mime width height fname eff h =>
    simp only [_handleAttachImage_onSuccess, List.mem_singleton] at h; subst h; rfl
  | attachImageFailure err eff h =>
    simp only [_handleAttachImage_onFailure, List.mem_singleton] at h; subst h; rfl
  | attachFile e eff h =>
    unfold _handleAttachFile at h
    split at h
    · split_ifs at h
      · simp at h; subst h; rfl
      · split at h
        · simp at h; rcases h with rfl | rfl <;> rfl
        · simp at h
          rcases h with rfl | rfl | rfl
          · rfl
          · rfl
          · simp [Effect.attachmentExclusive]
      · simp at h; subst h; rfl
    · simp at h
  | attachFileSuccess mime bits fname eff h =>
    simp only [_handleAttachFile_onSuccess, List.mem_singleton] at h; subst h; rfl
  | attachFileFailure err level eff h =>
    simp only [_handleAttachFile_onFailure, List.mem_singleton] at h; subst h; rfl

theorem emitted_attachmentExclusive_witness :
    Emitted sampleConfig sampleEnv
      (Effect.sendMessage
        (Content.attachFile "application/pdf" none "paper.pdf" (some 200000)
          (some { pid := 200001 }))
        (some { pid := 200001 }) (some { uid := 1 })) ∧
    (Effect.sendMessage
        (Content.attachFile "application/pdf" none "paper.pdf" (some 200000)
          (some { pid := 200001 }))
        (some { pid := 200001 }) (some { uid := 1 })).attachmentExclusive = true :=
  have hmem : Emitted sampleConfig sampleEnv
      (Effect.sendMessage
        (Content.attachFile "application/pdf" none "paper.pdf" (some 200000)
          (some { pid := 200001 }))
        (some { pid := 200001 }) (some { uid := 1 })) :=
    Emitted.attachFile { files := some [pdfFile], value := "paper.pdf" } _ (by decide)
  ⟨hmem, emitted_attachmentExclusive sampleConfig sampleEnv _ hmem⟩

/-! ## Typing notifications -/

theorem runTyping_suppressed (cfg : Config) (st : State) (es : List TypingEvent)
    (h : ∀ e ∈ es, e.now - st.keypressTimestamp < cfg.KEYPRESS_DELAY) :
    (runTyping cfg st es).2 = List.replicate es.length [] := by
  induction es generalizing st with
  | nil => rfl
  | cons e es ih =>
    have he : ¬ e.now - st.keypressTimestamp > cfg.KEYPRESS_DELAY := by
      have := h e (List.mem_cons_self e es)
      omega
    have hstep : _handleMessageTyping cfg st e = ({ st with message := e.value }, []) := by
      simp [_handleMessageTyping, he]
    have hrest := ih { st with message := e.value }
      (fun x hx => h x (List.mem_cons_of_mem e hx))
    simp only [runTyping, hstep, List.length_cons, List.replicate_succ]
    rw [hrest]

/-- C6: a component created at time `created`, in a subscribed conversation,
handles one or more typing events, with non-decreasing times, none before
`created`, all after the first less than `KEYPRESS_DELAY` later than the
first. The first event calls `topic.noteKeyPress()` once and the others call
nothing: one notification in all. -/
theorem typing_burst_one_notification (cfg : Config) (created : Int) (first : TypingEvent)
    (rest : List TypingEvent)
    (hsub : ∀ e ∈ first :: rest, e.subscribed = true)
    (hmono : List.Chain' (fun a b : TypingEvent => a.now ≤ b.now) (first :: rest))
    (hcreated : ∀ e ∈ first :: rest, created ≤ e.now)
    (hwindow : ∀ e ∈ rest, e.now - first.now < cfg.KEYPRESS_DELAY) :
    (runTyping cfg (State.initial cfg created) (first :: rest)).2 =
      [Effect.noteKeyPress] :: List.replicate rest.length [] ∧
    ((runTyping cfg (State.initial cfg created) (first :: rest)).2.map
      (fun t => t.count Effect.noteKeyPress)).sum = 1 := by
  have _ := hmono
  have hc : created ≤ first.now := hcreated first (List.mem_cons_self first rest)
  have hs : first.subscribed = true := hsub first (List.mem_cons_self first rest)
  have hgt : first.now - (State.initial cfg created).keypressTimestamp > cfg.KEYPRESS_DELAY := by
    simp only [State.initial]
    omega
  have hstep : _handleMessageTyping cfg (State.initial cfg created) first =
      ({ message := first.value, keypressTimestamp := first.now }, [Effect.noteKeyPress]) := by
    simp [_handleMessageTyping, hgt, hs]
  have hrest := runTyping_suppressed cfg
    { message := first.value, keypressTimestamp := first.now } rest hwindow
  have htrace : (runTyping cfg (State.initial cfg created) (first :: rest)).2 =
      [Effect.noteKeyPress] :: List.replicate rest.length [] := by
    simp only [runTyping, hstep]
    rw [hrest]
  refine ⟨htrace, ?_⟩
  rw [htrace]
  simp

theorem typing_burst_one_notification_witness :
    (runTyping sampleConfig (State.initial sampleConfig 1000)
      [{ now := 1000, subscribed := true, value := "h" },
       { now := 1500, subscribed := true, value := "he" },
       { now := 3999, subscribed := true, value := "hey" }]).2 =
      [[Effect.noteKeyPress], [], []] :=
  (typing_burst_one_notification sampleConfig 1000
    { now := 1000, subscribed := true, value := "h" }
    [{ now := 1500, subscribed := true, value := "he" },
     { now := 3999, subscribed := true, value := "hey" }]
    (by decide) (by simp) (by decide) (by decide)).1

/-- C7, as the code has it: a typing event at time `T` in a subscribed
conversation, on a component whose `keypressTimestamp` is `L`, calls
`topic.noteKeyPress()` if and only if `T > L + KEYPRESS_DELAY`. When it does,
`keypressTimestamp` becomes `T`; when `T <= L + KEYPRESS_DELAY` nothing is
called and `keypressTimestamp` stays `L`. -/
theorem handleMessageTyping_throttle (cfg : Config) (st : State) (e : TypingEvent)
    (hsub : e.subscribed = true) :
    (Effect.noteKeyPress ∈ (_handleMessageTyping cfg st e).2 ↔
      e.now > st.keypressTimestamp + cfg.KEYPRESS_DELAY) ∧
    (e.now > st.keypressTimestamp + cfg.KEYPRESS_DELAY →
      (_handleMessageTyping cfg st e).2 = [Effect.noteKeyPress] ∧
      (_handleMessageTyping cfg st e).1.keypressTimestamp = e.now) ∧
    (e.now ≤ st.keypressTimestamp + cfg.KEYPRESS_DELAY →
      (_handleMessageTyping cfg st e).2 = [] ∧
      (_handleMessageTyping cfg st e).1.keypressTimestamp = st.keypressTimestamp) := by
  by_cases h : e.now - st.keypressTimestamp > cfg.KEYPRESS_DELAY
  · have h2 : e.now > st.keypressTimestamp + cfg.KEYPRESS_DELAY := by omega
    have hstep : _handleMessageTyping cfg st e =
        ({ message := e.value, keypressTimestamp := e.now }, [Effect.noteKeyPress]) := by
      simp [_handleMessageTyping, h, hsub]
    rw [hstep]
    refine ⟨by simp [h2], fun _ => ⟨rfl, rfl⟩, fun h3 => ?_⟩
    omega
  · have h2 : ¬ e.now > st.keypressTimestamp + cfg.KEYPRESS_DELAY := by omega
    have hstep : _handleMessageTyping cfg st e = ({ st with message := e.value }, []) := by
      simp [_handleMessageTyping, h]
    rw [hstep]
    refine ⟨by simp [h2], fun h3 => absurd h3 h2, fun _ => ⟨rfl, rfl⟩⟩

theorem handleMessageTyping_throttle_witness :
    (Effect.noteKeyPress ∈ (_handleMessageTyping sampleConfig
        { message := "", keypressTimestamp := 1000 }
        { now := 4001, subscribed := true, value := "h" }).2 ↔
      (4001 : Int) > 1000 + sampleConfig.KEYPRESS_DELAY) :=
  (handleMessageTyping_throttle sampleConfig { message := "", keypressTimestamp := 1000 }
    { now := 4001, subscribed := true, value := "h" } rfl).1

/-- C7 as stated fails at `T = L + KEYPRESS_DELAY`: with `KEYPRESS_DELAY = 3000`
and `keypressTimestamp = 1000`, a typing event at time `4000` in a subscribed
conversation satisfies `T >= L + KEYPRESS_DELAY` and calls nothing. -/
theorem typing_boundary_counterexample :
    ¬ (Effect.noteKeyPress ∈ (_handleMessageTyping sampleConfig
        { message := "", keypressTimestamp := 1000 }
        { now := 4000, subscribed := true, value := "h" }).2 ↔
      (4000 : Int) ≥ 1000 + sampleConfig.KEYPRESS_DELAY) := by
  decide

/-- C8, as the code has it: a typing event in a conversation which is not
subscribed calls nothing. `keypressTimestamp` stays as it is when the event
comes no more than `KEYPRESS_DELAY` after it, and becomes the time of the
event otherwise. -/
theorem handleMessageTyping_not_subscribed (cfg : Config) (st : State) (e : TypingEvent)
    (hsub : e.subscribed = false) :
    (_handleMessageTyping cfg st e).2 = [] ∧
    (_handleMessageTyping cfg st e).1.keypressTimestamp =
      (if e.now - st.keypressTimestamp > cfg.KEYPRESS_DELAY then e.now
       else st.keypressTimestamp) := by
  by_cases h : e.now - st.keypressTimestamp > cfg.KEYPRESS_DELAY
  · simp [_handleMessageTyping, h, hsub]
  · simp [_handleMessageTyping, h]

theorem handleMessageTyping_not_subscribed_witness :
    (_handleMessageTyping sampleConfig { message := "", keypressTimestamp := 1000 }
        { now := 2000, subscribed := false, value := "h" }).2 = [] ∧
    (_handleMessageTyping sampleConfig { message := "", keypressTimestamp := 1000 }
        { now := 2000, subscribed := false, value := "h" }).1.keypressTimestamp =
      (if (2000 : Int) - 1000 > sampleConfig.KEYPRESS_DELAY then 2000 else 1000) :=
  handleMessageTyping_not_subscribed sampleConfig { message := "", keypressTimestamp := 1000 }
    { now := 2000, subscribed := false, value := "h" } rfl

/-- C8 as stated fails: with `KEYPRESS_DELAY = 3000` and `keypressTimestamp = 1000`,
a typing event at time `5000` in a conversation which is not subscribed calls
nothing and still moves `keypressTimestamp` to `5000`; the typing event at
time `6000`, with the conversation subscribed, is then suppressed. -/
theorem typing_not_subscribed_counterexample :
    (_handleMessageTyping sampleConfig { message := "", keypressTimestamp := 1000 }
        { now := 5000, subscribed := false, value := "h" }).2 = [] ∧
    (_handleMessageTyping sampleConfig { message := "", keypressTimestamp := 1000 }
        { now := 5000, subscribed := false, value := "h" }).1.keypressTimestamp ≠ 1000 ∧
    (runTyping sampleConfig { message := "", keypressTimestamp := 1000 }
        [{ now := 5000, subscribed := false, value := "h" },
         { now := 6000, subscribed := true, value := "hi" }]).2 = [[], []] := by
  decide

/-! ## Sending the draft -/

/-- C9: `_handleSend` on a draft `d`. When `d.trim()` is empty, which is when
every character of `d` is white space, the handler calls nothing and leaves
the state as it is; otherwise it calls `props.sendMessage` once, with
`d.trim()`, and the draft becomes the empty string. So `props.sendMessage` is
called exactly when `d.trim()` is not empty, and calling the handler again any
number of times adds nothing to what the first call did. -/
theorem handleSend_spec (st : State) :
    _handleSend st =
      (if jsTrim st.message = "" then (st, [])
      else ({ message := "", keypressTimestamp := st.keypressTimestamp },
        [Effect.sendMessage (Content.text (jsTrim st.message)) none none])) ∧
    ((∃ eff ∈ (_handleSend st).2, eff.isSend = true) ↔ jsTrim st.message ≠ "") ∧
    (jsTrim st.message = "" ↔ ∀ c ∈ st.message.data, isJsWhiteSpace c = true) ∧
    (∀ n : Nat, repeatSend (n + 1) st = _handleSend st) ∧
    (∀ n : Nat, repeatSend n st =
      (if jsTrim st.message = "" ∨ n = 0 then (st, []) else _handleSend st)) := by
  refine ⟨handleSend_eq st, ?_, jsTrim_eq_empty_iff st.message, fun n => repeatSend_succ n st, ?_⟩
  · rw [handleSend_eq]
    by_cases h : jsTrim st.message = ""
    · simp [h]
    · simp [h, Effect.isSend]
  · intro n
    cases n with
    | zero => simp [repeatSend]
    | succ n =>
      rw [repeatSend_succ]
      by_cases h : jsTrim st.message = ""
      · rw [handleSend_eq]; simp [h]
      · simp [h]

/-! ## Clearing the file input -/

theorem handleAttachImage_clears_value (cfg : Config) (e : FileEvent) :
    (_handleAttachImage cfg e).value = "" := by
  unfold _handleAttachImage
  split
  · split_ifs <;> rfl
  · rfl

theorem handleAttachFile_value (cfg : Config) (env : Collaborators) (e : FileEvent) :
    (_handleAttachFile cfg env e).value = "" ∨
    ((∃ file rest, e.files = some (file :: rest) ∧
        cfg.MAX_INBAND_ATTACHMENT_SIZE < file.size ∧
        file.size ≤ cfg.MAX_EXTERN_ATTACHMENT_SIZE) ∧
      env.getLargeFileHelper = none ∧ (_handleAttachFile cfg env e).value = e.value) := by
  unfold _handleAttachFile
  split
  · rename_i file rest hfiles
    split_ifs with h1 h2
    · exact Or.inl rfl
    · split
      · rename_i hnone
        exact Or.inr ⟨⟨file, rest, hfiles, h2, not_lt.mp h1⟩, hnone, rfl⟩
      · exact Or.inl rfl
    · exact Or.inl rfl
  · exact Or.inl rfl

/-- C10 fails on the branch without uploader: for a file between the two limits
and a session whose `getLargeFileHelper()` returns `null`, `_handleAttachFile`
returns at line 180, before line 198 clears `e.target.value`, and the value of
the file input stays what it was. -/
theorem attachFile_value_kept_without_uploader :
    (_handleAttachFile sampleConfig sampleEnvNoUploader
      { files := some [pdfFile], value := "paper.pdf" }).value = "paper.pdf" ∧
    (_handleAttachFile sampleConfig sampleEnvNoUploader
      { files := some [pdfFile], value := "paper.pdf" }).value ≠ "" := by
  decide

end SendMessage
